import Mathlib

/-!
Verification of the gossip engine of `adamgarcia4/goLearning` (cassandra/gossip).

The Go sources are embedded shallowly:
- `int64` and `int` counters (generations, versions, timestamps) are modeled as
  unbounded `Int`; versions start at 0/1 and grow by single increments, so
  64-bit overflow is unreachable in the modeled executions.
- Go maps (`map[NodeID]*EndpointState`, `map[AppStateKey]AppState`) are modeled
  as association lists with first-match lookup and in-place update; `m[k] = v`
  is `setKey`, `m[k]` with the ok-flag is `lookupKey`.
- Mutation through pointers becomes explicit state passing: each mutating
  method returns the updated value.
- `time.Now().Unix()` is an external input, passed as an explicit `now`
  argument.
- the `logFn` field and all mutexes carry no state relevant to the claims and
  are omitted.
-/

set_option autoImplicit false

namespace Gossip

/-- NodeID is an opaque string identifier (types.go: `type NodeID string`). -/
abbrev NodeID := String

/-- AppStateKey is a string key for application states (types.go). -/
abbrev AppStateKey := String

/-- Constant for the STATUS application-state key (types.go: `AppStatus`). -/
def AppStatus : AppStateKey := "STATUS"

/-- Constant for the ADDR application-state key (types.go: `AppHeartbeat`). -/
def AppHeartbeat : AppStateKey := "ADDR"

/-- AppState mirrors the gossip package's `AppState` struct, with the field set
used by `refreshNodeState` and `NewGossipState` (fields `Status`, `Address`,
`Value`, `Version`). -/
structure AppState where
  Status : String
  Address : String
  Value : String
  Version : Int
deriving DecidableEq

/-- HeartbeatStateSnapshot mirrors `HeartbeatStateSnapshot` (heartbeat_state.go):
a mutex-free copy of the heartbeat state. -/
structure HeartbeatStateSnapshot where
  NodeID : NodeID
  Generation : Int
  Version : Int
deriving DecidableEq

/-- HeartbeatState mirrors `HeartbeatState` (heartbeat_state.go); the `sync.RWMutex`
is dropped in this sequential model. -/
structure HeartbeatState where
  nodeID : NodeID
  generation : Int
  version : Int
deriving DecidableEq

/-- UpdateHeartbeat (heartbeat_state.go): increments the version and returns a
snapshot of the state captured after the increment. The Go method mutates the
receiver; here the updated receiver is returned as the first component. -/
def HeartbeatState.UpdateHeartbeat (h : HeartbeatState) :
    HeartbeatState × HeartbeatStateSnapshot :=
  let h2 : HeartbeatState := { h with version := h.version + 1 }
  (h2, { NodeID := h2.nodeID, Generation := h2.generation, Version := h2.version })

/-- GetSnapshot (heartbeat_state.go): read-only snapshot. -/
def HeartbeatState.GetSnapshot (h : HeartbeatState) : HeartbeatStateSnapshot :=
  { NodeID := h.nodeID, Generation := h.generation, Version := h.version }

/-- NewHeartbeatState (heartbeat_state.go): version starts at 0. -/
def NewHeartbeatState (nodeID : NodeID) (generation : Int) : HeartbeatState :=
  { nodeID := nodeID, generation := generation, version := 0 }

/-- EndpointState mirrors `EndpointState` (endpoint_state.go). -/
structure EndpointState where
  HeartbeatState : HeartbeatStateSnapshot
  applicationStates : List (AppStateKey × AppState)
  isAlive : Bool
  updateTimestamp : Int
deriving DecidableEq

/-- First-match lookup in an association list; models Go map indexing `m[k]`. -/
def lookupKey {α : Type} (m : List (String × α)) (k : String) : Option α :=
  match m with
  | [] => none
  | (k2, v) :: rest => if k2 = k then some v else lookupKey rest k

/-- In-place update / insert in an association list; models Go map assignment
`m[k] = v` (overwrites the existing binding, otherwise appends). -/
def setKey {α : Type} (m : List (String × α)) (k : String) (v : α) :
    List (String × α) :=
  match m with
  | [] => [(k, v)]
  | (k2, v2) :: rest =>
      if k2 = k then (k2, v) :: rest else (k2, v2) :: setKey rest k v

/-- GossipState mirrors `GossipState` (gossip.go). `heartbeatInterval` is a
`time.Duration` (an int64 nanosecond count) modeled as `Int`; `logFn` is
omitted (logging only). -/
structure GossipState where
  nodeID : NodeID
  clusterID : String
  heartbeatInterval : Int
  myHeartbeatState : HeartbeatState
  StateByNode : List (NodeID × EndpointState)
deriving DecidableEq

/-- Error message used by `NewGossipState` for a non-positive interval. -/
def errIntervalMsg : String := "interval must be greater than 0"

/-- Error message used by `NewGossipState` for an empty node ID. -/
def errNodeIDMsg : String := "nodeID must be set"

/-- Error message used by `NewGossipState` for an empty cluster ID. -/
def errClusterIDMsg : String := "clusterID must be set"

/-- The STATUS entry installed for a fresh endpoint
(gossip.go `NewGossipState`, state_management.go `refreshNodeState`). -/
def initialAppStatus : AppState :=
  { Status := "UP", Address := "", Value := "UP", Version := 1 }

/-- The ADDR entry installed for a fresh endpoint (address not yet known). -/
def initialAppHeartbeat : AppState :=
  { Status := "UP", Address := "", Value := "", Version := 1 }

/-- NewGossipState (gossip.go, lines 131-181): validates the configuration,
creates the local heartbeat state with `generation = now`, and seeds
`StateByNode` with the local endpoint entry. -/
def NewGossipState (nodeID : NodeID) (clusterID : String) (interval : Int)
    (now : Int) : Except String GossipState :=
  if interval ≤ 0 then .error errIntervalMsg
  else if nodeID = "" then .error errNodeIDMsg
  else if clusterID = "" then .error errClusterIDMsg
  else
    let myHeartbeatState := NewHeartbeatState nodeID now
    let initialSnapshot := myHeartbeatState.GetSnapshot
    let localEntry : EndpointState :=
      { HeartbeatState := initialSnapshot
        applicationStates :=
          setKey (setKey [] AppStatus initialAppStatus) AppHeartbeat
            initialAppHeartbeat
        isAlive := true
        updateTimestamp := now }
    .ok
      { nodeID := nodeID
        clusterID := clusterID
        heartbeatInterval := interval
        myHeartbeatState := myHeartbeatState
        StateByNode := setKey [] nodeID localEntry }

/-- refreshNodeState (state_management.go, lines 82-155): updates the stored
state for `nodeID` with an incoming heartbeat snapshot. If no entry exists a
fresh one is inserted with default STATUS/ADDR entries at version 1; otherwise
the stored heartbeat is unconditionally replaced by the incoming snapshot and
the STATUS and ADDR application-state versions are each incremented
("Increment version to indicate state refresh"), the ADDR value (address)
being preserved. The entry is marked alive and its timestamp set to `now`.
Note the Go source performs no generation or version comparison here. -/
def refreshNodeState (g : GossipState) (nodeID : NodeID)
    (heartbeatState : HeartbeatStateSnapshot) (now : Int) : GossipState :=
  match lookupKey g.StateByNode nodeID with
  | none =>
      let ep : EndpointState :=
        { HeartbeatState := heartbeatState
          applicationStates :=
            setKey (setKey [] AppStatus initialAppStatus) AppHeartbeat
              initialAppHeartbeat
          isAlive := true
          updateTimestamp := now }
      { g with StateByNode := setKey g.StateByNode nodeID ep }
  | some endpointState =>
      let es1 : EndpointState := { endpointState with HeartbeatState := heartbeatState }
      let appStatus : AppState :=
        match lookupKey es1.applicationStates AppStatus with
        | none => initialAppStatus
        | some a => { a with Version := a.Version + 1, Status := "UP", Value := "UP" }
      let es2 : EndpointState :=
        { es1 with applicationStates := setKey es1.applicationStates AppStatus appStatus }
      let appHeartbeat : AppState :=
        match lookupKey es2.applicationStates AppHeartbeat with
        | none => initialAppHeartbeat
        | some a => { a with Version := a.Version + 1, Status := "UP" }
      let es3 : EndpointState :=
        { es2 with
          applicationStates := setKey es2.applicationStates AppHeartbeat appHeartbeat }
      let es4 : EndpointState := { es3 with isAlive := true, updateTimestamp := now }
      { g with StateByNode := setKey g.StateByNode nodeID es4 }

/-- updateLocalEndpointState (state_management.go, lines 162-177): refreshes the
local node's entry after a heartbeat tick, replacing the stored heartbeat with
the given snapshot and incrementing every application-state version. No-op when
the local entry is absent. -/
def updateLocalEndpointState (g : GossipState) (snapshot : HeartbeatStateSnapshot)
    (now : Int) : GossipState :=
  match lookupKey g.StateByNode g.nodeID with
  | none => g
  | some localState =>
      let ls : EndpointState :=
        { localState with
          HeartbeatState := snapshot
          isAlive := true
          updateTimestamp := now
          applicationStates :=
            localState.applicationStates.map
              (fun p => (p.1, { p.2 with Version := p.2.Version + 1 })) }
      { g with StateByNode := setKey g.StateByNode g.nodeID ls }

/-- GossipDigest (digest.go): compact state summary. The Go fields are `int`
(64-bit), modeled as `Int`. -/
structure GossipDigest where
  NodeID : String
  Generation : Int
  MaxVersion : Int
deriving DecidableEq

/-- calculateMaxVersionForEndpoint (digest.go, lines 44-54): the running-maximum
loop over application-state versions, seeded with the heartbeat version. -/
def calculateMaxVersionForEndpoint (ep : EndpointState) : Int :=
  ep.applicationStates.foldl
    (fun maxVer p => if p.2.Version > maxVer then p.2.Version else maxVer)
    ep.HeartbeatState.Version

/-- CreateDigests (digest.go, lines 27-40): one digest per entry of
`StateByNode`, in map order. -/
def CreateDigests (g : GossipState) : List GossipDigest :=
  g.StateByNode.map
    (fun p =>
      { NodeID := p.1
        Generation := p.2.HeartbeatState.Generation
        MaxVersion := calculateMaxVersionForEndpoint p.2 })

/-- The per-digest branch of the CompareDigests loop (digest.go, lines
161-197) that decides whether the local state is appended to
`endpointStates`: known node and either strictly higher local generation, or
equal generation and strictly higher local max version. The Go loop appends
the `*EndpointState` pointer of the `StateByNode` binding; the pair
`(NodeID, EndpointState)` makes that binding explicit. -/
def digestReply (g : GossipState) (rd : GossipDigest) :
    Option (NodeID × EndpointState) :=
  match lookupKey g.StateByNode rd.NodeID with
  | none => none
  | some localState =>
      if localState.HeartbeatState.Generation > rd.Generation then
        some (rd.NodeID, localState)
      else if localState.HeartbeatState.Generation < rd.Generation then none
      else if calculateMaxVersionForEndpoint localState > rd.MaxVersion then
        some (rd.NodeID, localState)
      else none

/-- The per-digest branch of the CompareDigests loop (digest.go, lines
161-197) that decides whether the digest is appended to `requestDigests`:
unknown node, or strictly higher remote generation, or equal generation and
strictly higher remote max version. -/
def digestRequest (g : GossipState) (rd : GossipDigest) : Option GossipDigest :=
  match lookupKey g.StateByNode rd.NodeID with
  | none => some rd
  | some localState =>
      if localState.HeartbeatState.Generation > rd.Generation then none
      else if localState.HeartbeatState.Generation < rd.Generation then some rd
      else if calculateMaxVersionForEndpoint localState > rd.MaxVersion then none
      else if calculateMaxVersionForEndpoint localState < rd.MaxVersion then some rd
      else none

/-- CompareDigests (digest.go, lines 151-208): classifies each remote digest
against the local store, then appends the local entries the remote digest list
did not mention (`seenRemoteNodes` collects every digest's NodeID before the
second loop runs). The single Go loop appends to its two result lists
independently per digest, so it is rendered as one `filterMap` pass per
result list, with `digestReply` and `digestRequest` holding the two halves
of the loop body's if/else chain. -/
def CompareDigests (g : GossipState) (remoteDigests : List GossipDigest) :
    List (NodeID × EndpointState) × List GossipDigest :=
  let endpointStates := remoteDigests.filterMap (digestReply g)
  let requestDigests := remoteDigests.filterMap (digestRequest g)
  let seen : List NodeID := remoteDigests.map (fun rd => rd.NodeID)
  let unseenStates : List (NodeID × EndpointState) :=
    g.StateByNode.filter (fun p => !(seen.contains p.1))
  (endpointStates ++ unseenStates, requestDigests)

/-! ### Association-list lemmas -/

theorem lookupKey_setKey {α : Type} (m : List (String × α)) (k k' : String) (v : α) :
    lookupKey (setKey m k v) k' = if k = k' then some v else lookupKey m k' := by
  induction m with
  | nil => by_cases h : k = k' <;> simp [setKey, lookupKey, h]
  | cons p rest ih =>
      obtain ⟨k2, v2⟩ := p
      by_cases h : k2 = k
      · subst h
        by_cases h2 : k2 = k' <;> simp [setKey, lookupKey, h2]
      · by_cases h2 : k2 = k' <;> by_cases h3 : k = k' <;>
          simp_all [setKey, lookupKey]

theorem lookupKey_some_mem {α : Type} {m : List (String × α)} {k : String} {v : α}
    (h : lookupKey m k = some v) : (k, v) ∈ m := by
  induction m with
  | nil => simp [lookupKey] at h
  | cons p rest ih =>
      obtain ⟨k2, v2⟩ := p
      by_cases h2 : k2 = k
      · subst h2
        simp [lookupKey] at h
        subst h
        exact List.mem_cons_self _ _
      · simp only [lookupKey, if_neg h2] at h
        exact List.mem_cons_of_mem _ (ih h)

theorem mem_lookupKey_of_nodup {α : Type} {m : List (String × α)} {k : String} {v : α}
    (hnd : (m.map Prod.fst).Nodup) (h : (k, v) ∈ m) : lookupKey m k = some v := by
  induction m with
  | nil => simp at h
  | cons p rest ih =>
      obtain ⟨k2, v2⟩ := p
      simp only [List.map_cons, List.nodup_cons] at hnd
      rcases List.mem_cons.1 h with h1 | h1
      · injection h1 with hk hv
        subst hk
        subst hv
        simp [lookupKey]
      · have hk2 : k2 ≠ k := by
          intro he
          subst he
          exact hnd.1 (List.mem_map.2 ⟨(k2, v), h1, rfl⟩)
        simp only [lookupKey, if_neg hk2]
        exact ih hnd.2 h1

theorem lookupKey_setKey_self {α : Type} (m : List (String × α)) (k : String)
    (v : α) : lookupKey (setKey m k v) k = some v := by
  rw [lookupKey_setKey]
  simp

/-! ### Running-maximum lemmas for `calculateMaxVersionForEndpoint` -/

theorem foldl_versionMax_ge_init (l : List (AppStateKey × AppState)) (init : Int) :
    init ≤ l.foldl (fun m p => if p.2.Version > m then p.2.Version else m) init := by
  induction l generalizing init with
  | nil => simp
  | cons p rest ih =>
      simp only [List.foldl_cons]
      refine le_trans ?_ (ih _)
      split <;> omega

theorem foldl_versionMax_ge_mem (l : List (AppStateKey × AppState)) (init : Int)
    {p : AppStateKey × AppState} (hp : p ∈ l) :
    p.2.Version ≤ l.foldl (fun m q => if q.2.Version > m then q.2.Version else m) init := by
  induction l generalizing init with
  | nil => simp at hp
  | cons q rest ih =>
      simp only [List.foldl_cons]
      rcases List.mem_cons.1 hp with h | h
      · subst h
        refine le_trans ?_ (foldl_versionMax_ge_init rest _)
        split <;> omega
      · exact ih _ h

theorem foldl_versionMax_attained (l : List (AppStateKey × AppState)) (init : Int) :
    l.foldl (fun m q => if q.2.Version > m then q.2.Version else m) init = init ∨
      ∃ p ∈ l, l.foldl (fun m q => if q.2.Version > m then q.2.Version else m) init
        = p.2.Version := by
  induction l generalizing init with
  | nil => exact Or.inl rfl
  | cons q rest ih =>
      simp only [List.foldl_cons]
      split
      · rcases ih q.2.Version with h | ⟨p, hp, hres⟩
        · exact Or.inr ⟨q, List.mem_cons_self _ _, h⟩
        · exact Or.inr ⟨p, List.mem_cons_of_mem _ hp, hres⟩
      · rcases ih init with h | ⟨p, hp, hres⟩
        · exact Or.inl h
        · exact Or.inr ⟨p, List.mem_cons_of_mem _ hp, hres⟩

theorem calculateMaxVersion_ge_heartbeat (ep : EndpointState) :
    ep.HeartbeatState.Version ≤ calculateMaxVersionForEndpoint ep :=
  foldl_versionMax_ge_init _ _

theorem calculateMaxVersion_ge_appState (ep : EndpointState)
    {p : AppStateKey × AppState} (hp : p ∈ ep.applicationStates) :
    p.2.Version ≤ calculateMaxVersionForEndpoint ep :=
  foldl_versionMax_ge_mem _ _ hp

theorem calculateMaxVersion_attained (ep : EndpointState) :
    calculateMaxVersionForEndpoint ep = ep.HeartbeatState.Version ∨
      ∃ p ∈ ep.applicationStates, calculateMaxVersionForEndpoint ep = p.2.Version :=
  foldl_versionMax_attained _ _

/-! ### Concrete sample states used by witnesses and counterexamples -/

/-- Sample node name used in concrete scenarios. -/
def nodeA : NodeID := "A"

/-- Sample node name unknown to any sample store. -/
def nodeX : NodeID := "X"

/-- Sample local node name. -/
def nodeLocal : NodeID := "node-1"

/-- Sample cluster name. -/
def clusterSample : String := "cluster-1"

/-- A stored endpoint for node A: generation 10, heartbeat version 5, STATUS
and ADDR app-state versions 3 (so maxVersion = 5). -/
def sampleEndpointA : EndpointState :=
  { HeartbeatState := { NodeID := nodeA, Generation := 10, Version := 5 }
    applicationStates :=
      [(AppStatus, { Status := "UP", Address := "", Value := "UP", Version := 3 }),
       (AppHeartbeat,
        { Status := "UP", Address := "", Value := "127.0.0.1:50052", Version := 3 })]
    isAlive := true
    updateTimestamp := 100 }

/-- The local endpoint as laid out by `NewGossipState` for `nodeLocal` with
generation 50. -/
def sampleLocalEntry : EndpointState :=
  { HeartbeatState := { NodeID := nodeLocal, Generation := 50, Version := 0 }
    applicationStates := [(AppStatus, initialAppStatus), (AppHeartbeat, initialAppHeartbeat)]
    isAlive := true
    updateTimestamp := 50 }

/-- A sample engine state holding the local entry and node A's entry. -/
def sampleState : GossipState :=
  { nodeID := nodeLocal
    clusterID := clusterSample
    heartbeatInterval := 1
    myHeartbeatState := { nodeID := nodeLocal, generation := 50, version := 0 }
    StateByNode := [(nodeLocal, sampleLocalEntry), (nodeA, sampleEndpointA)] }

/-! ### Claim C10 -/

/-- Claim C10: `UpdateHeartbeat` increments the heartbeat version by exactly
one, leaves the node ID and generation fields unchanged, and the snapshot it
returns equals the post-increment state. -/
theorem updateHeartbeat_increments_version_only (h : HeartbeatState) :
    (h.UpdateHeartbeat).1 = { h with version := h.version + 1 } ∧
    (h.UpdateHeartbeat).2 =
      { NodeID := h.nodeID, Generation := h.generation, Version := h.version + 1 } ∧
    (h.UpdateHeartbeat).2 = (h.UpdateHeartbeat).1.GetSnapshot :=
  ⟨rfl, rfl, rfl⟩

/-! ### Claim C8 -/

/-- Claim C8: `NewGossipState` returns an error exactly when the node ID is
empty, the cluster ID is empty, or the heartbeat interval is non-positive; for
every valid configuration it returns an engine. -/
theorem newGossipState_error_iff (nodeID clusterID : String) (interval now : Int) :
    ((∃ e, NewGossipState nodeID clusterID interval now = .error e) ↔
      (nodeID = "" ∨ clusterID = "" ∨ interval ≤ 0)) ∧
    ((∃ g, NewGossipState nodeID clusterID interval now = .ok g) ↔
      (nodeID ≠ "" ∧ clusterID ≠ "" ∧ 0 < interval)) := by
  unfold NewGossipState
  split_ifs with h1 h2 h3 <;>
    constructor <;> constructor <;> intro hx <;> simp_all <;> omega

/-! ### Claim C1 -/

/-- Stale incoming snapshot for node A: generation 9, below the stored 10. -/
def staleIncoming : HeartbeatStateSnapshot :=
  { NodeID := nodeA, Generation := 9, Version := 1 }

/-- Claim C1 (refuted by the code): node A is stored with generation 10; the
incoming snapshot has generation 9 < 10, yet `refreshNodeState` replaces the
stored heartbeat with the stale one, increments both app-state versions and
advances the timestamp — the entry is changed, not left unchanged. -/
theorem refreshNodeState_accepts_stale_generation :
    staleIncoming.Generation < sampleEndpointA.HeartbeatState.Generation ∧
    lookupKey sampleState.StateByNode nodeA = some sampleEndpointA ∧
    lookupKey (refreshNodeState sampleState nodeA staleIncoming 200).StateByNode nodeA
      = some
        { HeartbeatState := staleIncoming
          applicationStates :=
            [(AppStatus, { Status := "UP", Address := "", Value := "UP", Version := 4 }),
             (AppHeartbeat,
              { Status := "UP", Address := "", Value := "127.0.0.1:50052", Version := 4 })]
          isAlive := true
          updateTimestamp := 200 } ∧
    lookupKey (refreshNodeState sampleState nodeA staleIncoming 200).StateByNode nodeA
      ≠ some sampleEndpointA := by decide

/-! ### Claim C2 -/

/-- An incoming snapshot for node A at the stored generation. -/
def sameIncoming : HeartbeatStateSnapshot :=
  { NodeID := nodeA, Generation := 10, Version := 6 }

/-- The sample store after one application of the merge. -/
def refreshOnce : GossipState := refreshNodeState sampleState nodeA sameIncoming 200

/-- The sample store after two applications of the same merge input. -/
def refreshTwice : GossipState := refreshNodeState refreshOnce nodeA sameIncoming 200

/-- Claim C2 (refuted by the code): applying `refreshNodeState` twice with the
same input does not yield the same store contents as applying it once — the
STATUS app-state version is 4 after one application and 5 after two, although
the heartbeat agrees; the merge is not idempotent. -/
theorem refreshNodeState_not_idempotent :
    refreshTwice.StateByNode ≠ refreshOnce.StateByNode ∧
    Option.map (fun es => (lookupKey es.applicationStates AppStatus).map AppState.Version)
        (lookupKey refreshOnce.StateByNode nodeA) = some (some 4) ∧
    Option.map (fun es => (lookupKey es.applicationStates AppStatus).map AppState.Version)
        (lookupKey refreshTwice.StateByNode nodeA) = some (some 5) ∧
    Option.map EndpointState.HeartbeatState (lookupKey refreshOnce.StateByNode nodeA)
      = Option.map EndpointState.HeartbeatState (lookupKey refreshTwice.StateByNode nodeA)
    := by decide

/-! ### Claim C3 -/

/-- An incoming snapshot carrying the local node's own NodeID. -/
def incomingForLocal : HeartbeatStateSnapshot :=
  { NodeID := nodeLocal, Generation := 60, Version := 1 }

/-- Claim C3 counterexample: an incoming merge for the local NodeID changes the
local node's entry in the store — `refreshNodeState` replaces the local
heartbeat with the incoming one and bumps the local app-state versions instead
of ignoring the incoming entry. -/
theorem refreshNodeState_local_id_changes_entry :
    lookupKey sampleState.StateByNode sampleState.nodeID = some sampleLocalEntry ∧
    lookupKey (refreshNodeState sampleState sampleState.nodeID incomingForLocal
        300).StateByNode sampleState.nodeID ≠ some sampleLocalEntry := by decide

/-- Claim C3 (amended): `refreshNodeState` has no special case for the local
NodeID — its effect on the store is independent of the engine's own `nodeID`
field, so an incoming merge for the local NodeID mutates the local entry
exactly as it would mutate a remote node's entry. -/
theorem refreshNodeState_independent_of_own_nodeID (g : GossipState) (other : NodeID)
    (n : NodeID) (hb : HeartbeatStateSnapshot) (now : Int) :
    (refreshNodeState g n hb now).StateByNode =
      (refreshNodeState { g with nodeID := other } n hb now).StateByNode := by
  have h : ({ g with nodeID := other } : GossipState).StateByNode = g.StateByNode := rfl
  unfold refreshNodeState
  rw [h]
  cases lookupKey g.StateByNode n <;> rfl

/-! ### Claim C4 -/

/-- Claim C4 (refuted by the code): one merge processed by `refreshNodeState`
decreases the (generation, maxVersion) pair of node A from (10, 5) to (9, 4):
the stale generation 9 overwrites generation 10, and the new maxVersion
max(1, 4, 4) = 4 is below the old max(5, 3, 3) = 5. -/
theorem refreshNodeState_decreases_generation_maxVersion :
    Option.map (fun es => (es.HeartbeatState.Generation, calculateMaxVersionForEndpoint es))
        (lookupKey sampleState.StateByNode nodeA) = some (10, 5) ∧
    Option.map (fun es => (es.HeartbeatState.Generation, calculateMaxVersionForEndpoint es))
        (lookupKey (refreshNodeState sampleState nodeA staleIncoming 200).StateByNode nodeA)
      = some (9, 4) := by decide

/-! ### Claim C9 -/

/-- A malformed digest: negative generation and negative max version. -/
def negativeDigest : GossipDigest :=
  { NodeID := nodeX, Generation := -3, MaxVersion := -7 }

/-- Claim C9 counterexample: a received digest with negative generation and
negative version is not discarded: `CompareDigests` produces ACK content for
it — the malformed digest for the locally-unknown node X comes back as a
request digest, exactly as a well-formed one would. -/
theorem compareDigests_processes_negative_digest :
    negativeDigest.Generation < 0 ∧ negativeDigest.MaxVersion < 0 ∧
    (CompareDigests sampleState [negativeDigest]).2 = [negativeDigest] := by decide

/-- Claim C9 (amended): the engine performs no validation of negative counters —
a digest with negative generation or version is classified by the same
comparison rules as any other digest: if its node is unknown locally it becomes
a request digest, and if the local generation is strictly greater the local
state is emitted as ACK endpoint state. (The comparison never modifies the
store: `CompareDigests` is read-only.) -/
theorem compareDigests_no_negativity_check (g : GossipState) (rd : GossipDigest)
    (_hneg : rd.Generation < 0 ∨ rd.MaxVersion < 0) :
    (lookupKey g.StateByNode rd.NodeID = none → rd ∈ (CompareDigests g [rd]).2) ∧
    (∀ ls, lookupKey g.StateByNode rd.NodeID = some ls →
      rd.Generation < ls.HeartbeatState.Generation →
      (rd.NodeID, ls) ∈ (CompareDigests g [rd]).1) := by
  constructor
  · intro hnone
    simp [CompareDigests, digestRequest, hnone]
  · intro ls hsome hgen
    have hgt : ls.HeartbeatState.Generation > rd.Generation := hgen
    simp [CompareDigests, digestReply, hsome, hgt]

/-- Witness for the amended Claim C9 at a concrete malformed digest. -/
theorem compareDigests_no_negativity_check_witness :
    negativeDigest ∈ (CompareDigests sampleState [negativeDigest]).2 :=
  (compareDigests_no_negativity_check sampleState negativeDigest
    (Or.inl (by decide))).1 (by decide)

/-! ### Claim C5 -/

/-- The responder's local entry is strictly newer than a received digest:
higher generation, or equal generation and strictly higher max version. -/
def localStrictlyNewer (localState : EndpointState) (rd : GossipDigest) : Prop :=
  rd.Generation < localState.HeartbeatState.Generation ∨
    (rd.Generation = localState.HeartbeatState.Generation ∧
      rd.MaxVersion < calculateMaxVersionForEndpoint localState)

/-- The received digest is strictly newer than the responder's local entry. -/
def remoteStrictlyNewer (localState : EndpointState) (rd : GossipDigest) : Prop :=
  localState.HeartbeatState.Generation < rd.Generation ∨
    (rd.Generation = localState.HeartbeatState.Generation ∧
      calculateMaxVersionForEndpoint localState < rd.MaxVersion)

theorem digestReply_eq_some_iff (g : GossipState) (rd : GossipDigest) (n : NodeID)
    (es : EndpointState) :
    digestReply g rd = some (n, es) ↔
      rd.NodeID = n ∧ lookupKey g.StateByNode n = some es ∧
        localStrictlyNewer es rd := by
  unfold digestReply
  split
  · rename_i heq
    constructor
    · intro h
      cases h
    · rintro ⟨hn, hlk, _⟩
      subst hn
      rw [heq] at hlk
      cases hlk
  · rename_i ls heq
    constructor
    · intro h
      split_ifs at h with h1 h2 h3 <;>
      · have hp := Option.some.inj h
        have hn : rd.NodeID = n := congrArg Prod.fst hp
        have hes : ls = es := congrArg Prod.snd hp
        subst hn
        subst hes
        refine ⟨rfl, heq, ?_⟩
        unfold localStrictlyNewer
        omega
    · rintro ⟨hn, hlk, hnewer⟩
      subst hn
      rw [heq] at hlk
      have hes : ls = es := Option.some.inj hlk
      subst hes
      unfold localStrictlyNewer at hnewer
      rcases hnewer with h1 | ⟨h2, h3⟩
      · rw [if_pos h1]
      · rw [if_neg (by omega), if_neg (by omega), if_pos h3]

theorem digestRequest_eq_some_iff (g : GossipState) (rd d : GossipDigest) :
    digestRequest g rd = some d ↔
      rd = d ∧ ∀ ls, lookupKey g.StateByNode rd.NodeID = some ls →
        remoteStrictlyNewer ls rd := by
  unfold digestRequest
  split
  · rename_i heq
    constructor
    · intro h
      injection h with h'
      subst h'
      refine ⟨rfl, fun ls hls => ?_⟩
      rw [heq] at hls
      cases hls
    · rintro ⟨h1, _⟩
      subst h1
      rfl
  · rename_i ls heq
    constructor
    · intro h
      split_ifs at h with h1 h2 h3 h4 <;>
      · have hd : rd = d := Option.some.inj h
        subst hd
        refine ⟨rfl, fun ls2 hls2 => ?_⟩
        rw [heq] at hls2
        have he : ls = ls2 := Option.some.inj hls2
        subst he
        unfold remoteStrictlyNewer
        omega
    · rintro ⟨h1, hcond⟩
      subst h1
      have hr := hcond ls heq
      unfold remoteStrictlyNewer at hr
      rcases hr with hg | ⟨hge, hv⟩
      · rw [if_neg (by omega), if_pos hg]
      · rw [if_neg (by omega), if_neg (by omega), if_neg (by omega), if_pos hv]

/-- Claim C5: `CompareDigests` returns the responder's full endpoint state
exactly for the nodes where the responder is strictly newer than the digest
naming them, or which no remote digest mentions; it returns a request digest
exactly for the received digests whose node is unknown locally or strictly
newer remotely; and an in-sync digest (equal generation and equal max
version) contributes to neither output. -/
theorem compareDigests_exact (g : GossipState) (ds : List GossipDigest)
    (hstore : (g.StateByNode.map Prod.fst).Nodup)
    (hds : (ds.map GossipDigest.NodeID).Nodup) :
    (∀ n es, (n, es) ∈ (CompareDigests g ds).1 ↔
      (lookupKey g.StateByNode n = some es ∧
        ∀ rd ∈ ds, rd.NodeID = n → localStrictlyNewer es rd)) ∧
    (∀ d, d ∈ (CompareDigests g ds).2 ↔
      (d ∈ ds ∧ ∀ ls, lookupKey g.StateByNode d.NodeID = some ls →
        remoteStrictlyNewer ls d)) ∧
    (∀ rd ∈ ds, ∀ ls, lookupKey g.StateByNode rd.NodeID = some ls →
      rd.Generation = ls.HeartbeatState.Generation →
      rd.MaxVersion = calculateMaxVersionForEndpoint ls →
      (∀ es, (rd.NodeID, es) ∉ (CompareDigests g ds).1) ∧
        rd ∉ (CompareDigests g ds).2) := by
  have hmem1 : ∀ n es, (n, es) ∈ (CompareDigests g ds).1 ↔
      ((∃ rd ∈ ds, digestReply g rd = some (n, es)) ∨
        ((n, es) ∈ g.StateByNode ∧ n ∉ ds.map (fun rd => rd.NodeID))) := by
    intro n es
    simp only [CompareDigests]
    constructor
    · intro h
      rcases List.mem_append.1 h with hL | hR
      · obtain ⟨rd, hrd, hsome⟩ := List.mem_filterMap.1 hL
        exact Or.inl ⟨rd, hrd, hsome⟩
      · refine Or.inr ⟨(List.mem_filter.1 hR).1, ?_⟩
        have hflag := (List.mem_filter.1 hR).2
        simpa using hflag
    · rintro (⟨rd, hrd, hsome⟩ | ⟨hmem, hns⟩)
      · exact List.mem_append.2 (Or.inl (List.mem_filterMap.2 ⟨rd, hrd, hsome⟩))
      · refine List.mem_append.2 (Or.inr (List.mem_filter.2 ⟨hmem, ?_⟩))
        simpa using hns
  have hmem2 : ∀ d, d ∈ (CompareDigests g ds).2 ↔
      ∃ rd ∈ ds, digestRequest g rd = some d := by
    intro d
    simp only [CompareDigests, List.mem_filterMap]
  have part1 : ∀ n es, (n, es) ∈ (CompareDigests g ds).1 ↔
      (lookupKey g.StateByNode n = some es ∧
        ∀ rd ∈ ds, rd.NodeID = n → localStrictlyNewer es rd) := by
    intro n es
    rw [hmem1]
    constructor
    · rintro (⟨rd, hrd, hsome⟩ | ⟨hmem, hns⟩)
      · obtain ⟨hname, hlk, hnewer⟩ := (digestReply_eq_some_iff g rd n es).1 hsome
        refine ⟨hlk, fun rd2 hrd2 hname2 => ?_⟩
        have : rd2 = rd :=
          List.inj_on_of_nodup_map hds hrd2 hrd (by rw [hname2, hname])
        subst this
        exact hnewer
      · refine ⟨mem_lookupKey_of_nodup hstore hmem, fun rd hrd hname => ?_⟩
        exact absurd (List.mem_map.2 ⟨rd, hrd, hname⟩) hns
    · rintro ⟨hlk, hall⟩
      by_cases hn : n ∈ ds.map GossipDigest.NodeID
      · obtain ⟨rd, hrd, hname⟩ := List.mem_map.1 hn
        exact Or.inl ⟨rd, hrd,
          (digestReply_eq_some_iff g rd n es).2 ⟨hname, hlk, hall rd hrd hname⟩⟩
      · exact Or.inr ⟨lookupKey_some_mem hlk, hn⟩
  have part2 : ∀ d, d ∈ (CompareDigests g ds).2 ↔
      (d ∈ ds ∧ ∀ ls, lookupKey g.StateByNode d.NodeID = some ls →
        remoteStrictlyNewer ls d) := by
    intro d
    rw [hmem2]
    constructor
    · rintro ⟨rd, hrd, hsome⟩
      obtain ⟨heq, hcond⟩ := (digestRequest_eq_some_iff g rd d).1 hsome
      subst heq
      exact ⟨hrd, hcond⟩
    · rintro ⟨hd, hcond⟩
      exact ⟨d, hd, (digestRequest_eq_some_iff g d d).2 ⟨rfl, hcond⟩⟩
  refine ⟨part1, part2, ?_⟩
  intro rd hrd ls hlk hgen hver
  constructor
  · intro es hmemes
    obtain ⟨hlk2, hall⟩ := (part1 rd.NodeID es).1 hmemes
    rw [hlk] at hlk2
    injection hlk2 with hes
    subst hes
    have hnewer := hall rd hrd rfl
    unfold localStrictlyNewer at hnewer
    rcases hnewer with h | ⟨_, h⟩ <;> omega
  · intro hmemrd
    obtain ⟨_, hcond⟩ := (part2 rd).1 hmemrd
    have hnewer := hcond ls hlk
    unfold remoteStrictlyNewer at hnewer
    rcases hnewer with h | ⟨_, h⟩ <;> omega

/-- A well-formed digest list used to instantiate Claim C5: one digest for
node A that is behind the local state (equal generation, lower max version). -/
def digestListW : List GossipDigest :=
  [{ NodeID := nodeA, Generation := 10, MaxVersion := 3 }]

/-- Witness for Claim C5 at a concrete store and digest list. -/
theorem compareDigests_exact_witness :
    (nodeA, sampleEndpointA) ∈ (CompareDigests sampleState digestListW).1 ↔
      (lookupKey sampleState.StateByNode nodeA = some sampleEndpointA ∧
        ∀ rd ∈ digestListW, rd.NodeID = nodeA →
          localStrictlyNewer sampleEndpointA rd) :=
  (compareDigests_exact sampleState digestListW (by decide) (by decide)).1
    nodeA sampleEndpointA

/-! ### Claim C6 -/

/-- Claim C6: every entry of the store contributes a digest carrying the
stored heartbeat generation and the running maximum computed by
`calculateMaxVersionForEndpoint`; and every digest produced by `CreateDigests`
stems from such an entry, its MaxVersion bounding the heartbeat version and
every app-state version and being attained by one of them (i.e. it is their
maximum). -/
theorem createDigests_fidelity (g : GossipState) :
    (∀ p ∈ g.StateByNode,
      ({ NodeID := p.1, Generation := p.2.HeartbeatState.Generation,
         MaxVersion := calculateMaxVersionForEndpoint p.2 } : GossipDigest)
        ∈ CreateDigests g) ∧
    (∀ d ∈ CreateDigests g, ∃ ep, (d.NodeID, ep) ∈ g.StateByNode ∧
      d.Generation = ep.HeartbeatState.Generation ∧
      d.MaxVersion = calculateMaxVersionForEndpoint ep ∧
      ep.HeartbeatState.Version ≤ d.MaxVersion ∧
      (∀ q ∈ ep.applicationStates, q.2.Version ≤ d.MaxVersion) ∧
      (d.MaxVersion = ep.HeartbeatState.Version ∨
        ∃ q ∈ ep.applicationStates, d.MaxVersion = q.2.Version)) := by
  constructor
  · intro p hp
    exact List.mem_map.2 ⟨p, hp, rfl⟩
  · intro d hd
    obtain ⟨p, hp, hpd⟩ := List.mem_map.1 hd
    subst hpd
    refine ⟨p.2, ?_, rfl, rfl, calculateMaxVersion_ge_heartbeat p.2,
      fun q hq => calculateMaxVersion_ge_appState p.2 hq,
      calculateMaxVersion_attained p.2⟩
    exact Prod.mk.eta ▸ hp

/-- Witness for Claim C6: the sample store's entry for node A yields the
digest (A, 10, 5). -/
theorem createDigests_fidelity_witness :
    ({ NodeID := nodeA, Generation := 10, MaxVersion := 5 } : GossipDigest)
      ∈ CreateDigests sampleState :=
  (createDigests_fidelity sampleState).1 (nodeA, sampleEndpointA) (by decide)

/-! ### Claim C7 -/

/-- Engine states reachable through the store's lifecycle: construction by
`NewGossipState`, remote merges via `refreshNodeState`, local-entry refreshes
via `updateLocalEndpointState`, and local heartbeat ticks via
`UpdateHeartbeat` (which touches only `myHeartbeatState`). No engine
operation removes entries from `StateByNode`. -/
inductive Reachable : GossipState → Prop where
  | init (nodeID : NodeID) (clusterID : String) (interval now : Int)
      (g : GossipState) (h : NewGossipState nodeID clusterID interval now = .ok g) :
      Reachable g
  | refresh (g : GossipState) (nodeID : NodeID) (hb : HeartbeatStateSnapshot)
      (now : Int) (h : Reachable g) : Reachable (refreshNodeState g nodeID hb now)
  | updateLocal (g : GossipState) (snapshot : HeartbeatStateSnapshot) (now : Int)
      (h : Reachable g) : Reachable (updateLocalEndpointState g snapshot now)
  | tick (g : GossipState) (h : Reachable g) :
      Reachable { g with myHeartbeatState := (g.myHeartbeatState.UpdateHeartbeat).1 }

theorem reachable_local_entry {g : GossipState} (h : Reachable g) :
    ∃ es, lookupKey g.StateByNode g.nodeID = some es := by
  induction h with
  | init nodeID clusterID interval now g h =>
      unfold NewGossipState at h
      split_ifs at h with h1 h2 h3
      have hg := Except.ok.inj h
      subst hg
      exact ⟨_, lookupKey_setKey_self _ _ _⟩
  | refresh g nodeID hb now hr ih =>
      obtain ⟨es, hes⟩ := ih
      unfold refreshNodeState
      cases hcase : lookupKey g.StateByNode nodeID with
      | none =>
          rw [lookupKey_setKey]
          by_cases hn : nodeID = g.nodeID
          · simp [hn]
          · simp only [if_neg hn]
            exact ⟨es, hes⟩
      | some ls =>
          rw [lookupKey_setKey]
          by_cases hn : nodeID = g.nodeID
          · simp [hn]
          · simp only [if_neg hn]
            exact ⟨es, hes⟩
  | updateLocal g snapshot now hr ih =>
      obtain ⟨es, hes⟩ := ih
      unfold updateLocalEndpointState
      cases hcase : lookupKey g.StateByNode g.nodeID with
      | none => exact ⟨es, hes⟩
      | some ls =>
          rw [lookupKey_setKey]
          simp
  | tick g hr ih => exact ih

/-- Claim C7: `CreateDigests` produces exactly one digest per entry of
`StateByNode` (same node IDs, in the same order), and in every reachable
engine state the local node has a store entry — the constructor installs it
and no engine operation removes it — so every produced digest list contains a
digest for the local endpoint. -/
theorem createDigests_one_per_entry_and_local (g : GossipState) (h : Reachable g) :
    (CreateDigests g).map GossipDigest.NodeID = g.StateByNode.map Prod.fst ∧
    ∃ d ∈ CreateDigests g, d.NodeID = g.nodeID := by
  constructor
  · simp only [CreateDigests, List.map_map]
    rfl
  · obtain ⟨es, hes⟩ := reachable_local_entry h
    exact ⟨_, List.mem_map.2 ⟨(g.nodeID, es), lookupKey_some_mem hes, rfl⟩, rfl⟩

/-- The engine state constructed by `NewGossipState nodeLocal clusterSample 1 50`. -/
def constructedState : GossipState :=
  { nodeID := nodeLocal
    clusterID := clusterSample
    heartbeatInterval := 1
    myHeartbeatState := { nodeID := nodeLocal, generation := 50, version := 0 }
    StateByNode := [(nodeLocal, sampleLocalEntry)] }

/-- Witness for Claim C7 at a concrete constructed engine state. -/
theorem createDigests_one_per_entry_and_local_witness :
    (CreateDigests constructedState).map GossipDigest.NodeID
        = constructedState.StateByNode.map Prod.fst ∧
    ∃ d ∈ CreateDigests constructedState, d.NodeID = constructedState.nodeID :=
  createDigests_one_per_entry_and_local constructedState
    (Reachable.init nodeLocal clusterSample 1 50 constructedState rfl)

end Gossip
